import Mathlib

/-!
Shallow embedding of the signaling server core (src/signaling-server/app.js).

The JS runtime structures are modelled as follows:
* a JS `Set` of connections is an insertion-ordered, duplicate-free
  `List Nat` of connection ids (`setAdd` / `setDelete` mirror `add` / `delete`);
* a JS `Set` of topic names is a `List String` (`strSetAdd`);
* the global `topics : Map<string, Set<conn>>` is an insertion-ordered
  association list `List (String × List Nat)` — JS `Map.get` reads the first
  matching key, `Map.set` of a new key appends, `Map.delete` removes the entry;
* each connection's closure state (`subscribedTopics`, `closed`,
  `pongReceived`, the `pingInterval` timer, the ws `readyState`, and two
  oracles for whether `conn.send` / `conn.ping` throw) is a `ConnSt`; the
  collection of live connections is an association list `List (Nat × ConnSt)`;
* code that can throw (the `JSON.parse` call in the message handler, the
  `.forEach` call on a truthy non-array `topics` field) is modelled with
  `Except Unit`: `.error ()` is an uncaught exception escaping the handler.
-/

namespace Sig

/-- JS `Set.add` on a set of connection ids: appends iff not present. -/
def setAdd (s : List Nat) (x : Nat) : List Nat :=
  if x ∈ s then s else s ++ [x]

/-- JS `Set.delete` on a set of connection ids. -/
def setDelete (s : List Nat) (x : Nat) : List Nat :=
  s.filter (fun y => y ≠ x)

/-- JS `Set.add` on a set of topic names. -/
def strSetAdd (s : List String) (x : String) : List String :=
  if x ∈ s then s else s ++ [x]

/-- The global `topics` map: topic name → subscriber set of connection ids. -/
abbrev TopicsMap := List (String × List Nat)

/-- JS `Map.get`: the value at the first occurrence of the key. -/
def lookupTopic : TopicsMap → String → Option (List Nat)
  | [], _ => none
  | p :: rest, k => if p.1 = k then some p.2 else lookupTopic rest k

/-- `map.setIfUndefined(topics, t, () => new Set())` followed by
`topic.add(conn)`: mutate the existing set at `t`, or append a fresh
one-element entry. -/
def subscribeTopic : TopicsMap → String → Nat → TopicsMap
  | [], t, cid => [(t, setAdd [] cid)]
  | p :: rest, t, cid =>
      if p.1 = t then (p.1, setAdd p.2 cid) :: rest
      else p :: subscribeTopic rest t cid

/-- The `unsubscribe` case: `topics.get(t)` and, if present, `subs.delete(conn)`.
The entry is never removed, even when the set becomes empty. -/
def unsubscribeTopic : TopicsMap → String → Nat → TopicsMap
  | [], _, _ => []
  | p :: rest, t, cid =>
      if p.1 = t then (p.1, setDelete p.2 cid) :: rest
      else p :: unsubscribeTopic rest t cid

/-- One step of the `close` handler loop: `subs.delete(conn)` and
`topics.delete(t)` when the set became empty. -/
def closeTopic : TopicsMap → String → Nat → TopicsMap
  | [], _, _ => []
  | p :: rest, t, cid =>
      if p.1 = t then
        (if setDelete p.2 cid = [] then rest else (p.1, setDelete p.2 cid) :: rest)
      else p :: closeTopic rest t cid

/-- Per-connection state: the ws `readyState` (0 = connecting, 1 = open,
2 = closing, 3 = closed), the closure variables `closed`, `pongReceived`
and `subscribedTopics`, whether the `pingInterval` timer is still set
(`timerActive`), and two transport oracles telling whether `conn.send`
resp. `conn.ping` would throw. -/
structure ConnSt where
  readyState : Nat
  closed : Bool
  pongReceived : Bool
  timerActive : Bool
  subscribedTopics : List String
  sendFails : Bool
  pingFails : Bool
deriving DecidableEq

/-- `conn.close()`: moves a connecting/open channel to the closing state;
a closing/closed channel is left as is. It does not run the `close`
handler (that fires as a separate event, `onClose`). -/
def jsClose (c : ConnSt) : ConnSt :=
  if c.readyState ≥ 2 then c else { c with readyState := 2 }

/-- The whole server: the global `topics` registry and every connection's
closure state keyed by connection id. -/
structure ServerState where
  topics : TopicsMap
  conns : List (Nat × ConnSt)
deriving DecidableEq

/-- Look up a connection's state by id. -/
def lookupC : List (Nat × ConnSt) → Nat → Option ConnSt
  | [], _ => none
  | p :: rest, cid => if p.1 = cid then some p.2 else lookupC rest cid

/-- Replace a connection's state by id (no-op on absent ids). -/
def updC : List (Nat × ConnSt) → Nat → ConnSt → List (Nat × ConnSt)
  | [], _, _ => []
  | p :: rest, cid, c => (if p.1 = cid then (p.1, c) else p) :: updC rest cid c

def getConn (s : ServerState) (cid : Nat) : Option ConnSt :=
  lookupC s.conns cid

def setConn (s : ServerState) (cid : Nat) (c : ConnSt) : ServerState :=
  { s with conns := updC s.conns cid c }

/-- The connection's own subscribed-topic set ([] for unknown ids). -/
def subsOf (s : ServerState) (cid : Nat) : List String :=
  match getConn s cid with
  | some c => c.subscribedTopics
  | none => []

/-- A JS value sitting in the `type` or `topic` field of a parsed message,
classified by exactly what the handler observes: strings keep their value
(truthiness of a string is non-emptiness); any other value is collapsed to
whether it is truthy. -/
inductive JAtom
  | undef
  | str (s : String)
  | otherTruthy
  | otherFalsy
deriving DecidableEq

/-- JS truthiness of a `JAtom`. The empty string is falsy. -/
def JAtom.truthy : JAtom → Bool
  | .undef => false
  | .str s => !(s == "")
  | .otherTruthy => true
  | .otherFalsy => false

/-- An element of a `topics` array: the handler only tests
`typeof topicName === 'string'`. -/
inductive JEntry
  | str (s : String)
  | nonString
deriving DecidableEq

/-- The `topics` field of a message. A falsy value (absent, null, 0, "",
false) is replaced by `[]` via `message.topics || []`; a truthy non-array
makes the `.forEach` call throw a TypeError. -/
inductive JTopics
  | falsy
  | arr (xs : List JEntry)
  | truthyNonArray
deriving DecidableEq

/-- A parsed message object: the fields the handler reads, plus an opaque
`payload` standing for the identity of all remaining fields (they are
carried through unchanged into the fanned-out publish message). -/
structure MsgObj where
  type : JAtom
  topics : JTopics
  topic : JAtom
  payload : Nat
deriving DecidableEq

/-- A successful `JSON.parse` result: either not an object (primitives and
arrays have no own `type` field, so the guard `message && message.type`
drops them whether or not the value itself is truthy), or a message object. -/
inductive ParsedVal
  | nonObj (truthy : Bool)
  | obj (m : MsgObj)
deriving DecidableEq

/-- An outbound JSON frame: `{type:'pong'}`, or a publish payload
augmented with `clients`. -/
inductive OutMsg
  | pong
  | publish (m : MsgObj) (clients : Nat)
deriving DecidableEq

/-- Result of the `send` function: the connection's updated state, whether
`conn.send` was invoked at all, and whether it completed without throwing. -/
structure SendResult where
  conn : ConnSt
  attempted : Bool
  ok : Bool
deriving DecidableEq

/-- `send(conn, message)`: if the channel is neither connecting nor open,
`conn.close()` is called — but there is no early return, so the
`try { conn.send(...) }` block is still entered afterwards; a throwing
`conn.send` is caught and answered with another `conn.close()`. -/
def send (c : ConnSt) : SendResult :=
  let c1 := if c.readyState ≠ 0 ∧ c.readyState ≠ 1 then jsClose c else c
  if c1.sendFails then { conn := jsClose c1, attempted := true, ok := false }
  else { conn := c1, attempted := true, ok := true }

/-- `message.topics || []` followed by the `.forEach` call: a falsy field
iterates nothing, an array iterates its elements, and a truthy non-array
has no `forEach` method (`none` = TypeError). -/
def topicsList : JTopics → Option (List JEntry)
  | .falsy => some []
  | .arr xs => some xs
  | .truthyNonArray => none

/-- The `subscribe` loop, threading the registry and the connection's own
`subscribedTopics` set: non-string entries are skipped by the
`typeof topicName === 'string'` test. -/
def subscribeAll (cid : Nat) : List JEntry → TopicsMap × List String → TopicsMap × List String
  | [], acc => acc
  | .str t :: rest, (tm, st) => subscribeAll cid rest (subscribeTopic tm t cid, strSetAdd st t)
  | .nonString :: rest, acc => subscribeAll cid rest acc

/-- The `unsubscribe` loop. A non-string entry is a `Map.get` miss (the
registry only ever holds string keys), hence a no-op. -/
def unsubscribeAll (cid : Nat) : List JEntry → TopicsMap → TopicsMap
  | [], tm => tm
  | .str t :: rest, tm => unsubscribeAll cid rest (unsubscribeTopic tm t cid)
  | .nonString :: rest, tm => unsubscribeAll cid rest tm

/-- The `close` handler loop over the connection's `subscribedTopics`. -/
def closeAll (cid : Nat) : List String → TopicsMap → TopicsMap
  | [], tm => tm
  | t :: rest, tm => closeAll cid rest (closeTopic tm t cid)

/-- The publish fan-out `receivers.forEach(receiver => send(receiver, message))`:
each receiver's state is updated by `send` and the attempted transmission
is logged in iteration order. -/
def publishFan (s : ServerState) (out : OutMsg) : List Nat → ServerState × List (Nat × OutMsg)
  | [] => (s, [])
  | r :: rest =>
      let s1 := match getConn s r with
                | some c => setConn s r (send c).conn
                | none => s
      let res := publishFan s1 out rest
      (res.1, (r, out) :: res.2)

/-- The `switch (message.type)` body, for a connection that passed the
`message && message.type && !closed` guard. -/
def handleParsed (s : ServerState) (cid : Nat) (c : ConnSt) (m : MsgObj) :
    Except Unit (ServerState × List (Nat × OutMsg)) :=
  if m.type = JAtom.str "subscribe" then
    match topicsList m.topics with
    | none => .error ()
    | some xs =>
        let r := subscribeAll cid xs (s.topics, c.subscribedTopics)
        .ok (setConn { s with topics := r.1 } cid { c with subscribedTopics := r.2 }, [])
  else if m.type = JAtom.str "unsubscribe" then
    match topicsList m.topics with
    | none => .error ()
    | some xs => .ok ({ s with topics := unsubscribeAll cid xs s.topics }, [])
  else if m.type = JAtom.str "publish" then
    match m.topic with
    | .str t =>
        if t = "" then .ok (s, [])
        else
          match lookupTopic s.topics t with
          | some receivers => .ok (publishFan s (OutMsg.publish m receivers.length) receivers)
          | none => .ok (s, [])
    | .otherTruthy => .ok (s, [])
    | _ => .ok (s, [])
  else if m.type = JAtom.str "ping" then
    .ok (setConn s cid (send c).conn, [(cid, OutMsg.pong)])
  else .ok (s, [])

/-- The `message` event handler. `none` is a payload on which `JSON.parse`
throws: the exception is uncaught (`.error ()`). A parse that does not
yield a truthy object with a truthy `type`, or a connection whose `closed`
flag is set, is dropped silently. -/
def onMessage (s : ServerState) (cid : Nat) (inb : Option ParsedVal) :
    Except Unit (ServerState × List (Nat × OutMsg)) :=
  match inb with
  | none => .error ()
  | some (.nonObj _) => .ok (s, [])
  | some (.obj m) =>
      match getConn s cid with
      | none => .ok (s, [])
      | some c =>
          if m.type.truthy && !c.closed then handleParsed s cid c m
          else .ok (s, [])

/-- The `close` event handler: unwind the registry along `subscribedTopics`,
clear that set, and raise the `closed` flag. Note that it does not touch
`timerActive`: the handler contains no `clearInterval` call. -/
def onClose (s : ServerState) (cid : Nat) : ServerState :=
  match getConn s cid with
  | none => s
  | some c =>
      setConn { s with topics := closeAll cid c.subscribedTopics s.topics } cid
        { c with subscribedTopics := [], closed := true }

/-- The `pong` event handler: unconditionally raise `pongReceived`. -/
def onPong (s : ServerState) (cid : Nat) : ServerState :=
  match getConn s cid with
  | none => s
  | some c => setConn s cid { c with pongReceived := true }

/-- One firing of the `pingInterval` timer (it fires only while set). The
returned flag says whether a liveness probe (`conn.ping()`) was attempted:
in the timeout branch the connection is closed and the timer cleared; in
the probe branch the flag is lowered and a throwing `conn.ping()` is
answered by `conn.close()` (without clearing the timer). -/
def onTick (s : ServerState) (cid : Nat) : ServerState × Bool :=
  match getConn s cid with
  | none => (s, false)
  | some c =>
      if c.timerActive = false then (s, false)
      else if c.pongReceived = false then
        (setConn s cid { jsClose c with timerActive := false }, false)
      else
        if c.pingFails then (setConn s cid (jsClose { c with pongReceived := false }), true)
        else (setConn s cid { c with pongReceived := false }, true)

/-- The events that can mutate the server state. -/
inductive Ev
  | msg (cid : Nat) (inb : Option ParsedVal)
  | closeEv (cid : Nat)
  | pongEv (cid : Nat)
  | tick (cid : Nat)

/-- One event step. Both throw points of the message handler (`JSON.parse`
and `.forEach` on a non-array) fire before any registry mutation, so an
erroring handler leaves the state as it was. -/
def step (s : ServerState) (e : Ev) : ServerState :=
  match e with
  | .msg cid inb =>
      match onMessage s cid inb with
      | .ok r => r.1
      | .error _ => s
  | .closeEv cid => onClose s cid
  | .pongEv cid => onPong s cid
  | .tick cid => (onTick s cid).1

/-- The registry has no duplicate topic keys (true in every reachable
state: `subscribeTopic` appends a key only when it is absent and nothing
else ever adds entries). -/
abbrev KeysOk (m : TopicsMap) : Prop := (m.map Prod.fst).Nodup

/-- The forward half of the bidirectional-consistency invariant: every
member of a topic's subscriber set has that topic in its own
subscribed-topic set. -/
def Inv (s : ServerState) : Prop :=
  ∀ p ∈ s.topics, ∀ k ∈ p.2, p.1 ∈ subsOf s k

instance (s : ServerState) : Decidable (Inv s) := by
  unfold Inv; infer_instance

/-- The lookup-phrased form of `Inv`, convenient for the fold proofs. -/
def LInv (s : ServerState) : Prop :=
  ∀ t v, lookupTopic s.topics t = some v → ∀ k ∈ v, t ∈ subsOf s k

/-- A fresh open connection, as `onconnection` initialises it:
`subscribedTopics = new Set()`, `closed = false`, `pongReceived = true`,
`pingInterval` running, healthy transport. -/
def cOpen : ConnSt :=
  { readyState := 1, closed := false, pongReceived := true, timerActive := true,
    subscribedTopics := [], sendFails := false, pingFails := false }

/-- A server with a single fresh connection (id 0) and an empty registry. -/
def sOne : ServerState := { topics := [], conns := [(0, cOpen)] }

/-- `{type:'subscribe', topics:[t]}`. -/
def mSubOne (t : String) : MsgObj :=
  { type := .str "subscribe", topics := .arr [.str t], topic := .undef, payload := 0 }

/-- `{type:'unsubscribe', topics:[t]}`. -/
def mUnsubOne (t : String) : MsgObj :=
  { type := .str "unsubscribe", topics := .arr [.str t], topic := .undef, payload := 0 }

/-- `{type:'unsubscribe', topics:xs}` for an arbitrary entry list. -/
def mUnsub (xs : List JEntry) : MsgObj :=
  { type := .str "unsubscribe", topics := .arr xs, topic := .undef, payload := 0 }

/-- `{type:'publish', topic:v}` (with opaque extra payload `p`). -/
def mPub (v : JAtom) (p : Nat) : MsgObj :=
  { type := .str "publish", topics := .falsy, topic := v, payload := p }

/-- The subscribe-then-unsubscribe run of connection 0 on topic "a",
starting from the one-connection server. -/
def subUnsub : ServerState :=
  step (step sOne (.msg 0 (some (.obj (mSubOne "a"))))) (.msg 0 (some (.obj (mUnsubOne "a"))))

/-- Connection 0 subscribed to topic "a", with its timer running. -/
def cSubbed : ConnSt := { cOpen with subscribedTopics := ["a"] }

/-- A server where connection 0 is the sole subscriber of topic "a". -/
def sSubbed : ServerState := { topics := [("a", [0])], conns := [(0, cSubbed)] }

/-- `{type:'subscribe', topics:42}`: a well-typed message whose `topics`
field is a truthy non-sequence. -/
def mSubBad : MsgObj :=
  { type := .str "subscribe", topics := .truthyNonArray, topic := .undef, payload := 0 }

/-- A connection whose `closed` flag is set. -/
def cClosed : ConnSt := { cOpen with closed := true }

/-- A server holding only the closed connection 0. -/
def sClosed : ServerState := { topics := [], conns := [(0, cClosed)] }

/-- A connection whose ws channel is already in the closed state (3). -/
def cDead : ConnSt := { cOpen with readyState := 3 }

theorem mem_setAdd {s : List Nat} {x k : Nat} : k ∈ setAdd s x ↔ k ∈ s ∨ k = x := by
  by_cases hx : x ∈ s <;> simp [setAdd, hx]
  exact fun h => h ▸ hx

theorem setAdd_of_mem {s : List Nat} {x : Nat} (h : x ∈ s) : setAdd s x = s := by
  simp [setAdd, h]

theorem setAdd_idem (s : List Nat) (x : Nat) : setAdd (setAdd s x) x = setAdd s x :=
  setAdd_of_mem (mem_setAdd.2 (Or.inr rfl))

theorem mem_setDelete {s : List Nat} {x k : Nat} : k ∈ setDelete s x ↔ k ∈ s ∧ k ≠ x := by
  simp [setDelete]

theorem mem_strSetAdd {s : List String} {x k : String} :
    k ∈ strSetAdd s x ↔ k ∈ s ∨ k = x := by
  by_cases hx : x ∈ s <;> simp [strSetAdd, hx]
  exact fun h => h ▸ hx

theorem strSetAdd_of_mem {s : List String} {x : String} (h : x ∈ s) : strSetAdd s x = s := by
  simp [strSetAdd, h]

theorem strSetAdd_idem (s : List String) (x : String) :
    strSetAdd (strSetAdd s x) x = strSetAdd s x :=
  strSetAdd_of_mem (mem_strSetAdd.2 (Or.inr rfl))

theorem mem_strSetAdd_self (s : List String) (x : String) : x ∈ strSetAdd s x :=
  mem_strSetAdd.2 (Or.inr rfl)

theorem mem_strSetAdd_of_mem {s : List String} {x k : String} (h : k ∈ s) :
    k ∈ strSetAdd s x :=
  mem_strSetAdd.2 (Or.inl h)

theorem lookupC_updC_self (l : List (Nat × ConnSt)) (cid : Nat) (c : ConnSt) :
    lookupC (updC l cid c) cid = (lookupC l cid).map (fun _ => c) := by
  induction l with
  | nil => rfl
  | cons p rest ih =>
      obtain ⟨a, d⟩ := p
      by_cases h : a = cid <;> simp [updC, lookupC, h, ih]

theorem lookupC_updC_ne (l : List (Nat × ConnSt)) (cid k : Nat) (c : ConnSt) (h : k ≠ cid) :
    lookupC (updC l cid c) k = lookupC l k := by
  induction l with
  | nil => rfl
  | cons p rest ih =>
      obtain ⟨a, d⟩ := p
      by_cases h2 : a = cid <;> by_cases h3 : a = k <;> simp_all [updC, lookupC]

theorem getConn_setConn_self {s : ServerState} {cid : Nat} {c c0 : ConnSt}
    (h : getConn s cid = some c0) : getConn (setConn s cid c) cid = some c := by
  simp [getConn, setConn, lookupC_updC_self] at h ⊢
  simp [h]

theorem getConn_setConn_ne {s : ServerState} {cid k : Nat} {c : ConnSt} (h : k ≠ cid) :
    getConn (setConn s cid c) k = getConn s k := by
  simp [getConn, setConn, lookupC_updC_ne _ _ _ _ h]

theorem setConn_topics (s : ServerState) (cid : Nat) (c : ConnSt) :
    (setConn s cid c).topics = s.topics := rfl

theorem subsOf_setConn_self {s : ServerState} {cid : Nat} {c c0 : ConnSt}
    (h : getConn s cid = some c0) :
    subsOf (setConn s cid c) cid = c.subscribedTopics := by
  simp [subsOf, getConn_setConn_self h]

theorem subsOf_setConn_ne {s : ServerState} {cid k : Nat} {c : ConnSt} (h : k ≠ cid) :
    subsOf (setConn s cid c) k = subsOf s k := by
  simp [subsOf, getConn_setConn_ne h]

theorem lookupTopic_eq_none {m : TopicsMap} {t : String} :
    lookupTopic m t = none ↔ t ∉ m.map Prod.fst := by
  induction m with
  | nil => simp [lookupTopic]
  | cons p rest ih =>
      obtain ⟨k, v⟩ := p
      by_cases h : k = t
      · subst h
        simp [lookupTopic]
      · simp only [lookupTopic, if_neg h, List.map_cons, List.mem_cons, ih]
        constructor
        · exact fun hn hc => hc.elim (fun he => h he.symm) hn
        · exact fun hn hm2 => hn (Or.inr hm2)

theorem lookupTopic_mem {m : TopicsMap} {t : String} {v : List Nat}
    (h : lookupTopic m t = some v) : (t, v) ∈ m := by
  induction m with
  | nil => simp [lookupTopic] at h
  | cons p rest ih =>
      obtain ⟨k, w⟩ := p
      by_cases h2 : k = t
      · subst h2
        simp [lookupTopic] at h
        subst h
        exact List.mem_cons_self _ _
      · simp only [lookupTopic, if_neg h2] at h
        exact List.mem_cons_of_mem _ (ih h)

theorem mem_lookupTopic {m : TopicsMap} (hk : KeysOk m) {t : String} {v : List Nat}
    (h : (t, v) ∈ m) : lookupTopic m t = some v := by
  induction m with
  | nil => simp at h
  | cons p rest ih =>
      obtain ⟨k, w⟩ := p
      rw [KeysOk, List.map_cons, List.nodup_cons] at hk
      rcases List.mem_cons.mp h with he | hm
      · rw [Prod.ext_iff] at he
        obtain ⟨h1, h2⟩ := he
        subst h1
        subst h2
        simp [lookupTopic]
      · have hne : k ≠ t := by
          intro he2
          have hmem : t ∈ rest.map Prod.fst := List.mem_map.2 ⟨(t, v), hm, rfl⟩
          exact hk.1 (by rw [he2]; exact hmem)
        simp [lookupTopic, hne, ih hk.2 hm]

theorem lookupTopic_subscribeTopic_self (m : TopicsMap) (t : String) (cid : Nat) :
    lookupTopic (subscribeTopic m t cid) t =
      some (setAdd ((lookupTopic m t).getD []) cid) := by
  induction m with
  | nil => simp [subscribeTopic, lookupTopic]
  | cons p rest ih =>
      obtain ⟨k, v⟩ := p
      by_cases h : k = t <;> simp [subscribeTopic, lookupTopic, h, ih]

theorem lookupTopic_subscribeTopic_ne (m : TopicsMap) (t t' : String) (cid : Nat)
    (h : t' ≠ t) : lookupTopic (subscribeTopic m t cid) t' = lookupTopic m t' := by
  have hne : t ≠ t' := fun he => h he.symm
  induction m with
  | nil => simp [subscribeTopic, lookupTopic, hne]
  | cons p rest ih =>
      obtain ⟨k, v⟩ := p
      by_cases h2 : k = t
      · subst h2
        simp [subscribeTopic, lookupTopic, hne]
      · simp [subscribeTopic, lookupTopic, h2, ih]

theorem keys_subscribeTopic_of_some (m : TopicsMap) (t : String) (cid : Nat)
    (h : (lookupTopic m t).isSome) :
    (subscribeTopic m t cid).map Prod.fst = m.map Prod.fst := by
  induction m with
  | nil => simp [lookupTopic] at h
  | cons p rest ih =>
      obtain ⟨k, v⟩ := p
      by_cases h2 : k = t
      · simp [subscribeTopic, h2]
      · simp only [lookupTopic, if_neg h2] at h
        simp [subscribeTopic, h2, ih h]

theorem keys_subscribeTopic_of_none (m : TopicsMap) (t : String) (cid : Nat)
    (h : lookupTopic m t = none) :
    (subscribeTopic m t cid).map Prod.fst = m.map Prod.fst ++ [t] := by
  induction m with
  | nil => simp [subscribeTopic]
  | cons p rest ih =>
      obtain ⟨k, v⟩ := p
      by_cases h2 : k = t
      · simp [lookupTopic, h2] at h
      · simp only [lookupTopic, if_neg h2] at h
        simp [subscribeTopic, h2, ih h]

theorem keysOk_subscribeTopic {m : TopicsMap} (hk : KeysOk m) (t : String) (cid : Nat) :
    KeysOk (subscribeTopic m t cid) := by
  rcases ho : lookupTopic m t with _ | v
  · rw [KeysOk, keys_subscribeTopic_of_none m t cid ho]
    refine List.Nodup.append hk (List.nodup_singleton t) ?_
    intro a ha hb
    rw [List.mem_singleton] at hb
    subst hb
    exact lookupTopic_eq_none.mp ho ha
  · rw [KeysOk, keys_subscribeTopic_of_some m t cid (by rw [ho]; rfl)]
    exact hk

theorem lookupTopic_unsubscribeTopic_self (m : TopicsMap) (t : String) (cid : Nat) :
    lookupTopic (unsubscribeTopic m t cid) t =
      (lookupTopic m t).map (fun v => setDelete v cid) := by
  induction m with
  | nil => simp [unsubscribeTopic, lookupTopic]
  | cons p rest ih =>
      obtain ⟨k, v⟩ := p
      by_cases h : k = t <;> simp [unsubscribeTopic, lookupTopic, h, ih]

theorem lookupTopic_unsubscribeTopic_ne (m : TopicsMap) (t t' : String) (cid : Nat)
    (h : t' ≠ t) : lookupTopic (unsubscribeTopic m t cid) t' = lookupTopic m t' := by
  have hne : t ≠ t' := fun he => h he.symm
  induction m with
  | nil => simp [unsubscribeTopic]
  | cons p rest ih =>
      obtain ⟨k, v⟩ := p
      by_cases h2 : k = t
      · subst h2
        simp [unsubscribeTopic, lookupTopic, hne]
      · simp [unsubscribeTopic, lookupTopic, h2, ih]

theorem keys_unsubscribeTopic (m : TopicsMap) (t : String) (cid : Nat) :
    (unsubscribeTopic m t cid).map Prod.fst = m.map Prod.fst := by
  induction m with
  | nil => rfl
  | cons p rest ih =>
      obtain ⟨k, v⟩ := p
      by_cases h : k = t <;> simp [unsubscribeTopic, h, ih]

theorem lookupTopic_closeTopic_ne (m : TopicsMap) (t t' : String) (cid : Nat)
    (h : t' ≠ t) : lookupTopic (closeTopic m t cid) t' = lookupTopic m t' := by
  have hne : t ≠ t' := fun he => h he.symm
  induction m with
  | nil => simp [closeTopic]
  | cons p rest ih =>
      obtain ⟨k, v⟩ := p
      by_cases h2 : k = t
      · subst h2
        by_cases he : setDelete v cid = [] <;>
          simp [closeTopic, lookupTopic, he, hne]
      · simp [closeTopic, lookupTopic, h2, ih]

theorem lookupTopic_closeTopic_self (m : TopicsMap) (t : String) (cid : Nat)
    (hk : KeysOk m) :
    lookupTopic (closeTopic m t cid) t =
      (lookupTopic m t).bind
        (fun v => if setDelete v cid = [] then none else some (setDelete v cid)) := by
  induction m with
  | nil => rfl
  | cons p rest ih =>
      obtain ⟨k, v⟩ := p
      rw [KeysOk, List.map_cons, List.nodup_cons] at hk
      by_cases h2 : k = t
      · subst h2
        by_cases he : setDelete v cid = []
        · simp [closeTopic, lookupTopic, he]
          exact lookupTopic_eq_none.mpr hk.1
        · simp [closeTopic, lookupTopic, he]
      · simp [closeTopic, lookupTopic, h2, ih hk.2]

theorem lookupTopic_closeTopic_none (m : TopicsMap) (t t' : String) (cid : Nat)
    (h : lookupTopic m t' = none) : lookupTopic (closeTopic m t cid) t' = none := by
  induction m with
  | nil => rfl
  | cons p rest ih =>
      obtain ⟨k, v⟩ := p
      by_cases h2 : k = t'
      · simp [lookupTopic, h2] at h
      · simp only [lookupTopic, if_neg h2] at h
        by_cases h3 : k = t
        · subst h3
          by_cases he : setDelete v cid = [] <;> simp [closeTopic, lookupTopic, he, h2, h]
        · simp [closeTopic, lookupTopic, h2, h3, ih h]

theorem keys_closeTopic_sublist (m : TopicsMap) (t : String) (cid : Nat) :
    ((closeTopic m t cid).map Prod.fst).Sublist (m.map Prod.fst) := by
  induction m with
  | nil => simp [closeTopic]
  | cons p rest ih =>
      obtain ⟨k, v⟩ := p
      by_cases h : k = t
      · subst h
        by_cases he : setDelete v cid = [] <;> simp [closeTopic, he]
      · simp only [closeTopic, if_neg h, List.map_cons]
        exact List.Sublist.cons₂ _ ih

theorem keysOk_closeTopic {m : TopicsMap} (hk : KeysOk m) (t : String) (cid : Nat) :
    KeysOk (closeTopic m t cid) :=
  List.Nodup.sublist (keys_closeTopic_sublist m t cid) hk

theorem Inv.toL {s : ServerState} (h : Inv s) : LInv s :=
  fun t v hl k hk => h (t, v) (lookupTopic_mem hl) k hk

theorem LInv.toInv {s : ServerState} (hk : KeysOk s.topics) (h : LInv s) : Inv s := by
  intro p hp k hkk
  exact h p.1 p.2 (mem_lookupTopic hk hp) k hkk

/-- Transfer of the invariant along a step that keeps the registry and
every subscribed-topic set intact. -/
theorem Inv_congr {s s' : ServerState} (ht : s'.topics = s.topics)
    (hs : ∀ k, subsOf s' k = subsOf s k) (h : Inv s) : Inv s' := by
  intro p hp k hk
  rw [hs k]
  exact h p (ht ▸ hp) k hk

theorem jsClose_subscribedTopics (c : ConnSt) :
    (jsClose c).subscribedTopics = c.subscribedTopics := by
  unfold jsClose
  split <;> rfl

theorem send_conn_subscribedTopics (c : ConnSt) :
    (send c).conn.subscribedTopics = c.subscribedTopics := by
  simp only [send]
  split <;> split <;> simp [jsClose_subscribedTopics]

theorem publishFan_topics (s : ServerState) (out : OutMsg) (rs : List Nat) :
    (publishFan s out rs).1.topics = s.topics := by
  induction rs generalizing s with
  | nil => rfl
  | cons r rest ih =>
      rcases hg : getConn s r with _ | c <;> simp [publishFan, hg, ih, setConn_topics]

theorem publishFan_subsOf (s : ServerState) (out : OutMsg) (rs : List Nat) (k : Nat) :
    subsOf (publishFan s out rs).1 k = subsOf s k := by
  induction rs generalizing s with
  | nil => rfl
  | cons r rest ih =>
      rcases hg : getConn s r with _ | c
      · simp [publishFan, hg, ih]
      · simp only [publishFan, hg]
        rw [ih]
        by_cases hk : k = r
        · subst hk
          rw [subsOf_setConn_self hg, send_conn_subscribedTopics, subsOf, hg]
        · rw [subsOf_setConn_ne hk]

theorem publishFan_log (s : ServerState) (out : OutMsg) (rs : List Nat) :
    (publishFan s out rs).2 = rs.map (fun r => (r, out)) := by
  induction rs generalizing s with
  | nil => rfl
  | cons r rest ih =>
      rcases hg : getConn s r with _ | c <;> simp [publishFan, hg, ih]

/-- Walking the `subscribe` loop keeps the keys duplicate-free and keeps
every subscriber-set member accounted for: `cid`'s memberships point into
the accumulated `subscribedTopics` set, everyone else's are untouched
(`R` is instantiated with membership in the pre-state). -/
theorem subscribeAll_spec (cid : Nat) (R : Nat → String → Prop) :
    ∀ (xs : List JEntry) (tm : TopicsMap) (st : List String),
      KeysOk tm →
      (∀ t v, lookupTopic tm t = some v → ∀ k ∈ v,
        (k = cid → t ∈ st) ∧ (k ≠ cid → R k t)) →
      KeysOk (subscribeAll cid xs (tm, st)).1 ∧
      ∀ t v, lookupTopic (subscribeAll cid xs (tm, st)).1 t = some v → ∀ k ∈ v,
        (k = cid → t ∈ (subscribeAll cid xs (tm, st)).2) ∧ (k ≠ cid → R k t) := by
  intro xs
  induction xs with
  | nil =>
      intro tm st hk h
      exact ⟨hk, h⟩
  | cons e rest ih =>
      intro tm st hk h
      cases e with
      | nonString => simpa only [subscribeAll] using ih tm st hk h
      | str t0 =>
          simp only [subscribeAll]
          apply ih
          · exact keysOk_subscribeTopic hk t0 cid
          · intro t v hl k hkv
            by_cases he : t = t0
            · subst he
              rw [lookupTopic_subscribeTopic_self] at hl
              injection hl with hv
              subst hv
              rcases mem_setAdd.mp hkv with hold | rfl
              · rcases ho : lookupTopic tm t with _ | v0
                · rw [ho] at hold
                  simp at hold
                · rw [ho] at hold
                  simp only [Option.getD_some] at hold
                  have h2 := h t v0 ho k hold
                  exact ⟨fun hc => mem_strSetAdd_of_mem (h2.1 hc), h2.2⟩
              · exact ⟨fun _ => mem_strSetAdd_self st t, fun hc => absurd rfl hc⟩
            · rw [lookupTopic_subscribeTopic_ne tm t0 t cid he] at hl
              have h2 := h t v hl k hkv
              exact ⟨fun hc => mem_strSetAdd_of_mem (h2.1 hc), h2.2⟩

theorem unsubscribeAll_keys (cid : Nat) :
    ∀ (xs : List JEntry) (tm : TopicsMap),
      (unsubscribeAll cid xs tm).map Prod.fst = tm.map Prod.fst := by
  intro xs
  induction xs with
  | nil => intro tm; rfl
  | cons e rest ih =>
      intro tm
      cases e with
      | nonString => simpa only [unsubscribeAll] using ih tm
      | str t0 =>
          simp only [unsubscribeAll]
          rw [ih, keys_unsubscribeTopic]

theorem unsubscribeAll_subset (cid : Nat) :
    ∀ (xs : List JEntry) (tm : TopicsMap) (t : String) (v : List Nat),
      lookupTopic (unsubscribeAll cid xs tm) t = some v →
      ∃ v0, lookupTopic tm t = some v0 ∧ ∀ k ∈ v, k ∈ v0 := by
  intro xs
  induction xs with
  | nil => intro tm t v h; exact ⟨v, h, fun _ hk => hk⟩
  | cons e rest ih =>
      intro tm t v h
      cases e with
      | nonString => exact ih tm t v (by simpa only [unsubscribeAll] using h)
      | str t0 =>
          rw [show unsubscribeAll cid (JEntry.str t0 :: rest) tm =
                unsubscribeAll cid rest (unsubscribeTopic tm t0 cid) from rfl] at h
          obtain ⟨v1, hv1, hsub⟩ := ih _ t v h
          by_cases he : t = t0
          · subst he
            rw [lookupTopic_unsubscribeTopic_self] at hv1
            rcases ho : lookupTopic tm t with _ | v0
            · rw [ho] at hv1
              cases hv1
            · rw [ho] at hv1
              simp at hv1
              subst hv1
              exact ⟨v0, rfl, fun k hk => (mem_setDelete.mp (hsub k hk)).1⟩
          · rw [lookupTopic_unsubscribeTopic_ne tm t0 t cid he] at hv1
            exact ⟨v1, hv1, hsub⟩

theorem unsubscribeAll_removed (cid : Nat) :
    ∀ (xs : List JEntry) (tm : TopicsMap) (t : String),
      JEntry.str t ∈ xs →
      ∀ v, lookupTopic (unsubscribeAll cid xs tm) t = some v → cid ∉ v := by
  intro xs
  induction xs with
  | nil =>
      intro tm t h
      simp at h
  | cons e rest ih =>
      intro tm t hmem v hl
      by_cases he : e = JEntry.str t
      · subst he
        rw [show unsubscribeAll cid (JEntry.str t :: rest) tm =
              unsubscribeAll cid rest (unsubscribeTopic tm t cid) from rfl] at hl
        obtain ⟨v0, hv0, hsub⟩ := unsubscribeAll_subset cid rest _ t v hl
        rw [lookupTopic_unsubscribeTopic_self] at hv0
        rcases ho : lookupTopic tm t with _ | v1
        · rw [ho] at hv0
          cases hv0
        · rw [ho] at hv0
          simp at hv0
          intro hc
          have hin := hsub cid hc
          rw [← hv0] at hin
          exact (mem_setDelete.mp hin).2 rfl
      · have hmem2 : JEntry.str t ∈ rest := by
          rcases List.mem_cons.mp hmem with h1 | h1
          · exact absurd h1.symm he
          · exact h1
        cases e with
        | nonString => exact ih tm t hmem2 v (by simpa only [unsubscribeAll] using hl)
        | str t0 =>
            exact ih (unsubscribeTopic tm t0 cid) t hmem2 v
              (by simpa only [unsubscribeAll] using hl)

theorem closeAll_none (cid : Nat) :
    ∀ (ts : List String) (tm : TopicsMap) (t : String),
      lookupTopic tm t = none → lookupTopic (closeAll cid ts tm) t = none := by
  intro ts
  induction ts with
  | nil => intro tm t h; exact h
  | cons t0 rest ih =>
      intro tm t h
      simpa only [closeAll] using
        ih (closeTopic tm t0 cid) t (lookupTopic_closeTopic_none tm t0 t cid h)

/-- Walking the `close` handler loop: keys stay duplicate-free, every
surviving entry is a shrunken version of a pre-state entry, and any topic
named in the processed list has lost `cid`. -/
theorem closeAll_spec (cid : Nat) :
    ∀ (ts : List String) (tm : TopicsMap),
      KeysOk tm →
      KeysOk (closeAll cid ts tm) ∧
      ∀ t v, lookupTopic (closeAll cid ts tm) t = some v →
        ∃ v0, lookupTopic tm t = some v0 ∧ (∀ k ∈ v, k ∈ v0) ∧ (t ∈ ts → cid ∉ v) := by
  intro ts
  induction ts with
  | nil =>
      intro tm hk
      refine ⟨hk, fun t v h => ⟨v, h, fun _ hk2 => hk2, fun hmem => ?_⟩⟩
      simp at hmem
  | cons t0 rest ih =>
      intro tm hk
      obtain ⟨hka, hspec⟩ := ih (closeTopic tm t0 cid) (keysOk_closeTopic hk t0 cid)
      refine ⟨by simpa only [closeAll] using hka, ?_⟩
      intro t v h
      rw [show closeAll cid (t0 :: rest) tm = closeAll cid rest (closeTopic tm t0 cid)
            from rfl] at h
      obtain ⟨v1, hv1, hsub, hrest⟩ := hspec t v h
      by_cases he : t = t0
      · subst he
        rw [lookupTopic_closeTopic_self tm t cid hk] at hv1
        rcases ho : lookupTopic tm t with _ | v0
        · rw [ho] at hv1
          cases hv1
        · rw [ho] at hv1
          simp only [Option.some_bind] at hv1
          by_cases hd : setDelete v0 cid = []
          · rw [if_pos hd] at hv1
            cases hv1
          · rw [if_neg hd] at hv1
            injection hv1 with hv
            subst hv
            refine ⟨v0, rfl, fun k hk2 => (mem_setDelete.mp (hsub k hk2)).1, fun _ hc => ?_⟩
            exact (mem_setDelete.mp (hsub cid hc)).2 rfl
      · rw [lookupTopic_closeTopic_ne tm t0 t cid he] at hv1
        refine ⟨v1, hv1, hsub, ?_⟩
        intro hmem hc
        rcases List.mem_cons.mp hmem with h1 | h1
        · exact he h1
        · exact hrest h1 hc

theorem closeAll_only_subscriber (cid : Nat) :
    ∀ (ts : List String) (tm : TopicsMap) (t : String),
      KeysOk tm → t ∈ ts → lookupTopic tm t = some [cid] →
      lookupTopic (closeAll cid ts tm) t = none := by
  intro ts
  induction ts with
  | nil =>
      intro tm t _ h
      simp at h
  | cons t0 rest ih =>
      intro tm t hk hmem hl
      by_cases he : t = t0
      · subst he
        have h1 : lookupTopic (closeTopic tm t cid) t = none := by
          rw [lookupTopic_closeTopic_self tm t cid hk, hl]
          simp [setDelete]
        simpa only [closeAll] using closeAll_none cid rest (closeTopic tm t cid) t h1
      · have hmem2 : t ∈ rest := by
          rcases List.mem_cons.mp hmem with h1 | h1
          · exact absurd h1 he
          · exact h1
        have hl2 : lookupTopic (closeTopic tm t0 cid) t = some [cid] := by
          rw [lookupTopic_closeTopic_ne tm t0 t cid he, hl]
        simpa only [closeAll] using
          ih (closeTopic tm t0 cid) t (keysOk_closeTopic hk t0 cid) hmem2 hl2

theorem getConn_topicsUpd (s : ServerState) (tm : TopicsMap) (cid : Nat) :
    getConn { s with topics := tm } cid = getConn s cid := rfl

theorem subsOf_topicsUpd (s : ServerState) (tm : TopicsMap) (k : Nat) :
    subsOf { s with topics := tm } k = subsOf s k := rfl

/-- Updating one connection without touching its subscribed-topic set
preserves both the key discipline and the forward invariant. -/
theorem inv_setConn_preserve {s : ServerState} {cid : Nat} {c c1 : ConnSt}
    (hg : getConn s cid = some c) (hsub : c1.subscribedTopics = c.subscribedTopics)
    (hk : KeysOk s.topics) (hi : Inv s) :
    KeysOk (setConn s cid c1).topics ∧ Inv (setConn s cid c1) := by
  refine ⟨hk, Inv_congr (setConn_topics s cid c1) ?_ hi⟩
  intro k
  by_cases hkc : k = cid
  · subst hkc
    rw [subsOf_setConn_self hg, hsub]
    simp [subsOf, hg]
  · rw [subsOf_setConn_ne hkc]

/-- Any successfully handled message keeps the registry keys
duplicate-free and keeps the forward invariant. -/
theorem inv_handleParsed {s : ServerState} {cid : Nat} {c : ConnSt} {m : MsgObj}
    (hg : getConn s cid = some c) (hk : KeysOk s.topics) (hi : Inv s) :
    ∀ r, handleParsed s cid c m = .ok r → KeysOk r.1.topics ∧ Inv r.1 := by
  intro r hr
  unfold handleParsed at hr
  split at hr
  · split at hr
    · cases hr
    · rename_i xs hxs
      injection hr with hr1
      subst hr1
      have hsub : subsOf s cid = c.subscribedTopics := by simp [subsOf, hg]
      obtain ⟨hka, hspec⟩ := subscribeAll_spec cid (fun k t => t ∈ subsOf s k) xs s.topics
        c.subscribedTopics hk
        (by
          intro t v hl k hkv
          have hmem := hi.toL t v hl k hkv
          exact ⟨fun hc => by rw [← hsub, ← hc]; exact hmem, fun _ => hmem⟩)
      refine ⟨hka, ?_⟩
      intro p hp k hkk
      have hl := mem_lookupTopic hka hp
      have h2 := hspec p.1 p.2 hl k hkk
      by_cases hkc : k = cid
      · subst hkc
        rw [subsOf_setConn_self (by rw [getConn_topicsUpd]; exact hg)]
        exact h2.1 rfl
      · rw [subsOf_setConn_ne hkc, subsOf_topicsUpd]
        exact h2.2 hkc
  · split at hr
    · split at hr
      · cases hr
      · rename_i xs hxs
        injection hr with hr1
        subst hr1
        have hka : KeysOk (unsubscribeAll cid xs s.topics) := by
          rw [KeysOk, unsubscribeAll_keys]
          exact hk
        refine ⟨hka, ?_⟩
        intro p hp k hkk
        have hl := mem_lookupTopic hka hp
        obtain ⟨v0, hv0, hsub2⟩ := unsubscribeAll_subset cid xs s.topics p.1 p.2 hl
        rw [subsOf_topicsUpd]
        exact hi.toL p.1 v0 hv0 k (hsub2 k hkk)
    · split at hr
      · split at hr
        · split at hr
          · injection hr with hr1
            subst hr1
            exact ⟨hk, hi⟩
          · split at hr
            · injection hr with hr1
              subst hr1
              refine ⟨?_, Inv_congr (publishFan_topics s _ _)
                (fun k => publishFan_subsOf s _ _ k) hi⟩
              rw [KeysOk, publishFan_topics]
              exact hk
            · injection hr with hr1
              subst hr1
              exact ⟨hk, hi⟩
        · injection hr with hr1
          subst hr1
          exact ⟨hk, hi⟩
        · injection hr with hr1
          subst hr1
          exact ⟨hk, hi⟩
      · split at hr
        · injection hr with hr1
          subst hr1
          exact inv_setConn_preserve hg (send_conn_subscribedTopics c) hk hi
        · injection hr with hr1
          subst hr1
          exact ⟨hk, hi⟩

/-- Any non-throwing run of the message handler preserves keys and the
forward invariant. -/
theorem inv_onMessage {s : ServerState} {cid : Nat} {inb : Option ParsedVal}
    (hk : KeysOk s.topics) (hi : Inv s) :
    ∀ r, onMessage s cid inb = .ok r → KeysOk r.1.topics ∧ Inv r.1 := by
  intro r hr
  unfold onMessage at hr
  split at hr
  · cases hr
  · injection hr with hr1
    subst hr1
    exact ⟨hk, hi⟩
  · split at hr
    · injection hr with hr1
      subst hr1
      exact ⟨hk, hi⟩
    · rename_i c hg
      split at hr
      · exact inv_handleParsed hg hk hi r hr
      · injection hr with hr1
        subst hr1
        exact ⟨hk, hi⟩

/-- The close-event handler preserves keys and the forward invariant. -/
theorem inv_onClose {s : ServerState} (cid : Nat) (hk : KeysOk s.topics) (hi : Inv s) :
    KeysOk (onClose s cid).topics ∧ Inv (onClose s cid) := by
  unfold onClose
  split
  · exact ⟨hk, hi⟩
  · rename_i c hg
    obtain ⟨hka, hspec⟩ := closeAll_spec cid c.subscribedTopics s.topics hk
    refine ⟨hka, ?_⟩
    intro p hp k hkk
    have hl := mem_lookupTopic hka hp
    obtain ⟨v0, hv0, hsub, hproc⟩ := hspec p.1 p.2 hl
    by_cases hkc : k = cid
    · subst hkc
      exfalso
      by_cases hmem : p.1 ∈ c.subscribedTopics
      · exact hproc hmem hkk
      · have hin : p.1 ∈ subsOf s k := hi.toL p.1 v0 hv0 k (hsub k hkk)
        simp only [subsOf, hg] at hin
        exact hmem hin
    · rw [subsOf_setConn_ne hkc, subsOf_topicsUpd]
      exact hi.toL p.1 v0 hv0 k (hsub k hkk)

/-- The pong-event handler preserves keys and the forward invariant. -/
theorem inv_onPong {s : ServerState} (cid : Nat) (hk : KeysOk s.topics) (hi : Inv s) :
    KeysOk (onPong s cid).topics ∧ Inv (onPong s cid) := by
  unfold onPong
  split
  · exact ⟨hk, hi⟩
  · rename_i c hg
    exact inv_setConn_preserve hg rfl hk hi

/-- A heartbeat tick preserves keys and the forward invariant. -/
theorem inv_onTick {s : ServerState} (cid : Nat) (hk : KeysOk s.topics) (hi : Inv s) :
    KeysOk (onTick s cid).1.topics ∧ Inv (onTick s cid).1 := by
  unfold onTick
  split
  · exact ⟨hk, hi⟩
  · rename_i c hg
    split
    · exact ⟨hk, hi⟩
    · split
      · exact inv_setConn_preserve hg (jsClose_subscribedTopics c) hk hi
      · split
        · exact inv_setConn_preserve hg (jsClose_subscribedTopics _) hk hi
        · exact inv_setConn_preserve hg rfl hk hi

/-- C1, counterexample to the claim as stated. The claim asserts the
bidirectional equivalence `C ∈ subscribers(T) ⟺ T ∈ C.subscribedTopics`
is preserved by every mutation, including unsubscribe. But after
connection 0 subscribes to "a" and then unsubscribes from it, the
registry's "a"-entry is the empty set (0 is no longer a member) while 0's
own subscribed-topic set still contains "a": the unsubscribe case removes
the connection from the topic's set without touching `subscribedTopics`,
so the reverse implication fails. -/
theorem c1_bidirectional_counterexample :
    lookupTopic subUnsub.topics "a" = some [] ∧ subsOf subUnsub 0 = ["a"] := by
  constructor <;> rfl

/-- C1, amended. Only the forward direction of the consistency invariant
holds: in any state with a duplicate-free registry in which every
subscriber-set member has that topic in its own subscribed-topic set,
every event step (subscribe, unsubscribe, publish, ping, pong, heartbeat
tick, close) preserves this property (and the key discipline). The
reverse direction is broken by unsubscribe, which does not remove the
topic name from the connection's subscribed-topic set. -/
theorem c1_forward_invariant_preserved (s : ServerState) (e : Ev)
    (hk : KeysOk s.topics) (hi : Inv s) :
    KeysOk (step s e).topics ∧ Inv (step s e) := by
  cases e with
  | msg cid inb =>
      simp only [step]
      rcases hr : onMessage s cid inb with u | r
      · exact ⟨hk, hi⟩
      · exact inv_onMessage hk hi r hr
  | closeEv cid => exact inv_onClose cid hk hi
  | pongEv cid => exact inv_onPong cid hk hi
  | tick cid => exact inv_onTick cid hk hi

/-- Witness for the C1 theorem at a concrete state: the server with
connection 0 subscribed to "a" satisfies the hypotheses, and the theorem
applies to its close event. -/
theorem c1_forward_invariant_preserved_witness :
    KeysOk sSubbed.topics ∧ Inv sSubbed ∧
      (KeysOk (step sSubbed (Ev.closeEv 0)).topics ∧ Inv (step sSubbed (Ev.closeEv 0))) :=
  ⟨by decide, by decide,
    c1_forward_invariant_preserved sSubbed (Ev.closeEv 0) (by decide) (by decide)⟩

theorem onMessage_subscribe_one (s : ServerState) (cid : Nat) (c : ConnSt) (t : String)
    (hg : getConn s cid = some c) (hc : c.closed = false) :
    onMessage s cid (some (.obj (mSubOne t))) =
      .ok (setConn { s with topics := subscribeTopic s.topics t cid } cid
        { c with subscribedTopics := strSetAdd c.subscribedTopics t }, []) := by
  have hguard : ((mSubOne t).type.truthy && !c.closed) = true := by
    rw [hc]
    rfl
  unfold onMessage
  rw [hg]
  show (if ((mSubOne t).type.truthy && !c.closed) = true
        then handleParsed s cid c (mSubOne t) else .ok (s, [])) = _
  rw [if_pos hguard]
  rfl

theorem onMessage_unsubscribe_one (s : ServerState) (cid : Nat) (c : ConnSt) (t : String)
    (hg : getConn s cid = some c) (hc : c.closed = false) :
    onMessage s cid (some (.obj (mUnsubOne t))) =
      .ok ({ s with topics := unsubscribeTopic s.topics t cid }, []) := by
  have hguard : ((mUnsubOne t).type.truthy && !c.closed) = true := by
    rw [hc]
    rfl
  unfold onMessage
  rw [hg]
  show (if ((mUnsubOne t).type.truthy && !c.closed) = true
        then handleParsed s cid c (mUnsubOne t) else .ok (s, [])) = _
  rw [if_pos hguard]
  rfl

/-- C2, counterexample to the claim as stated. A payload on which
`JSON.parse` fails is not discarded silently: the message handler wraps
no try/catch around the parse, so the exception escapes the handler. -/
theorem c2_malformed_counterexample :
    onMessage sOne 0 none = Except.error () := rfl

/-- C2, amended. Malformed input is only partially tolerated: payloads
that parse to a non-object, or to an object with a missing/falsy `type`,
are discarded silently with no state change and the connection open; but
a payload on which `JSON.parse` throws escapes as an exception, and so
does a subscribe whose `topics` field is a truthy non-sequence (its
`.forEach` is not a function). -/
theorem c2_malformed_handling (s : ServerState) (cid : Nat) :
    onMessage s cid none = Except.error () ∧
    (∀ b, onMessage s cid (some (.nonObj b)) = .ok (s, [])) ∧
    (∀ m : MsgObj, m.type.truthy = false → onMessage s cid (some (.obj m)) = .ok (s, [])) ∧
    (∀ c : ConnSt, getConn s cid = some c → c.closed = false →
      onMessage s cid (some (.obj mSubBad)) = Except.error ()) := by
  refine ⟨rfl, fun b => rfl, ?_, ?_⟩
  · intro m hm
    unfold onMessage
    show (match getConn s cid with
          | none => Except.ok (s, [])
          | some c => if (m.type.truthy && !c.closed) = true then handleParsed s cid c m
                      else Except.ok (s, [])) = Except.ok (s, [])
    split
    · rfl
    · rw [hm]
      rfl
  · intro c hg hc
    have hguard : (mSubBad.type.truthy && !c.closed) = true := by
      rw [hc]
      decide
    unfold onMessage
    rw [hg]
    show (if (mSubBad.type.truthy && !c.closed) = true
          then handleParsed s cid c mSubBad else .ok (s, [])) = _
    rw [if_pos hguard]
    rfl

/-- Witness for the C2 theorem: on the one-connection server, the parse
failure throws and the non-sequence subscribe throws, with the hypotheses
holding concretely. -/
theorem c2_malformed_handling_witness :
    getConn sOne 0 = some cOpen ∧ cOpen.closed = false ∧
      onMessage sOne 0 (some (.obj mSubBad)) = Except.error () :=
  ⟨rfl, rfl, (c2_malformed_handling sOne 0).2.2.2 cOpen rfl rfl⟩

/-- C9: once a connection's `closed` flag is set, any parseable inbound
message — in particular every subscribe/unsubscribe/publish/ping — is
dropped by the `!closed` guard: the state is returned unchanged and no
outbound message is produced. -/
theorem c9_closed_connection_inert (s : ServerState) (cid : Nat) (c : ConnSt) (v : ParsedVal)
    (hg : getConn s cid = some c) (hc : c.closed = true) :
    onMessage s cid (some v) = .ok (s, []) := by
  rcases v with b | m
  · rfl
  · unfold onMessage
    rw [hg]
    show (if (m.type.truthy && !c.closed) = true
          then handleParsed s cid c m else .ok (s, [])) = _
    rw [hc]
    simp

/-- Witness for the C9 theorem: the closed connection 0 receives a
subscribe message and nothing happens. -/
theorem c9_closed_connection_inert_witness :
    getConn sClosed 0 = some cClosed ∧ cClosed.closed = true ∧
      onMessage sClosed 0 (some (.obj (mSubOne "a"))) = .ok (sClosed, []) :=
  ⟨rfl, rfl, c9_closed_connection_inert sClosed 0 cClosed (.obj (mSubOne "a")) rfl rfl⟩

theorem jsClose_readyState_ge (c : ConnSt) : 2 ≤ (jsClose c).readyState := by
  unfold jsClose
  split
  · rename_i h
    exact h
  · simp

/-- C5, counterexample to the claim as stated. For a connection whose
channel is closed (readyState 3), `send` does call `conn.close()` — but
there is no early return, so it still attempts delivery: the
`conn.send` call is reached. -/
theorem c5_send_counterexample :
    cDead.readyState = 3 ∧ (send cDead).attempted = true :=
  ⟨rfl, rfl⟩

/-- C5, amended. When the channel is neither connecting nor open, `send`
closes the connection immediately (readyState moves to at least closing),
but delivery is still attempted: the `conn.send` call is made
unconditionally, its failure being answered by another close. -/
theorem c5_send_closes_but_still_attempts (c : ConnSt)
    (h0 : c.readyState ≠ 0) (h1 : c.readyState ≠ 1) :
    2 ≤ (send c).conn.readyState ∧ (send c).attempted = true := by
  simp only [send]
  rw [if_pos (And.intro h0 h1)]
  by_cases hs : (jsClose c).sendFails <;> simp [hs, jsClose_readyState_ge]

/-- Witness for the C5 theorem at the closed-channel connection. -/
theorem c5_send_closes_witness :
    cDead.readyState ≠ 0 ∧ cDead.readyState ≠ 1 ∧
      (2 ≤ (send cDead).conn.readyState ∧ (send cDead).attempted = true) :=
  ⟨by decide, by decide, c5_send_closes_but_still_attempts cDead (by decide) (by decide)⟩

/-- C10: the empty string is accepted by subscribe (it passes the
`typeof === 'string'` filter and a registry entry for `""` is created
containing the connection), but any publish whose `topic` field is the
empty string falls to the falsy side of `if (message.topic)` and is a
complete no-op — no deliveries, no `clients` annotation, no state change
— regardless of the server state and of who is subscribed. -/
theorem c10_empty_string_topic (s : ServerState) (cid : Nat) (c : ConnSt)
    (hg : getConn s cid = some c) (hc : c.closed = false) :
    (∃ v, lookupTopic (step s (Ev.msg cid (some (.obj (mSubOne ""))))).topics "" = some v ∧
      cid ∈ v) ∧
    (∀ (s2 : ServerState) (cid2 p : Nat),
      onMessage s2 cid2 (some (.obj (mPub (JAtom.str "") p))) = .ok (s2, [])) := by
  constructor
  · have hstep : step s (Ev.msg cid (some (.obj (mSubOne "")))) =
        setConn { s with topics := subscribeTopic s.topics "" cid } cid
          { c with subscribedTopics := strSetAdd c.subscribedTopics "" } := by
      simp only [step, onMessage_subscribe_one s cid c "" hg hc]
    rw [hstep, setConn_topics]
    exact ⟨_, lookupTopic_subscribeTopic_self s.topics "" cid,
      mem_setAdd.2 (Or.inr rfl)⟩
  · intro s2 cid2 p
    unfold onMessage
    show (match getConn s2 cid2 with
          | none => Except.ok (s2, [])
          | some c2 => if ((mPub (JAtom.str "") p).type.truthy && !c2.closed) = true
                       then handleParsed s2 cid2 c2 (mPub (JAtom.str "") p)
                       else Except.ok (s2, [])) = Except.ok (s2, [])
    split
    · rfl
    · rename_i c2 hg2
      by_cases hc2 : c2.closed
      · rw [hc2]
        simp
      · simp only [Bool.not_eq_true] at hc2
        rw [hc2]
        rfl

/-- Witness for the C10 theorem: on the one-connection server, subscribe
to "" creates the entry and a publish to "" from connection 0 delivers
nothing. -/
theorem c10_empty_string_topic_witness :
    getConn sOne 0 = some cOpen ∧ cOpen.closed = false ∧
      ((∃ v, lookupTopic (step sOne (Ev.msg 0 (some (.obj (mSubOne ""))))).topics "" = some v ∧
        0 ∈ v) ∧
      (∀ (s2 : ServerState) (cid2 p : Nat),
        onMessage s2 cid2 (some (.obj (mPub (JAtom.str "") p))) = .ok (s2, []))) :=
  ⟨rfl, rfl, c10_empty_string_topic sOne 0 cOpen rfl rfl⟩

theorem updC_updC (l : List (Nat × ConnSt)) (cid : Nat) (a b : ConnSt) :
    updC (updC l cid a) cid b = updC l cid b := by
  induction l with
  | nil => rfl
  | cons p rest ih =>
      obtain ⟨k, d⟩ := p
      by_cases h : k = cid <;> simp [updC, h, ih]

theorem subscribeTopic_idem (m : TopicsMap) (t : String) (cid : Nat) :
    subscribeTopic (subscribeTopic m t cid) t cid = subscribeTopic m t cid := by
  induction m with
  | nil => simp [subscribeTopic, setAdd_idem]
  | cons p rest ih =>
      obtain ⟨k, v⟩ := p
      by_cases h : k = t <;> simp [subscribeTopic, h, ih, setAdd_idem]

theorem onMessage_unsubscribe (s : ServerState) (cid : Nat) (c : ConnSt) (xs : List JEntry)
    (hg : getConn s cid = some c) (hc : c.closed = false) :
    onMessage s cid (some (.obj (mUnsub xs))) =
      .ok ({ s with topics := unsubscribeAll cid xs s.topics }, []) := by
  have hguard : ((mUnsub xs).type.truthy && !c.closed) = true := by
    rw [hc]
    rfl
  unfold onMessage
  rw [hg]
  show (if ((mUnsub xs).type.truthy && !c.closed) = true
        then handleParsed s cid c (mUnsub xs) else .ok (s, [])) = _
  rw [if_pos hguard]
  rfl

/-- C8: handling `{type:'subscribe', topics:[t]}` twice from the same
connection produces exactly the same server state as handling it once
(`Set.add` on both the registry set and the connection's own set is
idempotent); and when the topic was absent the resulting subscriber set
is exactly the one-element set of this connection. -/
theorem c8_subscribe_idempotent (s : ServerState) (cid : Nat) (c : ConnSt) (t : String)
    (hg : getConn s cid = some c) (hc : c.closed = false) :
    step (step s (Ev.msg cid (some (.obj (mSubOne t))))) (Ev.msg cid (some (.obj (mSubOne t)))) =
      step s (Ev.msg cid (some (.obj (mSubOne t)))) ∧
    (lookupTopic s.topics t = none →
      lookupTopic (step (step s (Ev.msg cid (some (.obj (mSubOne t)))))
        (Ev.msg cid (some (.obj (mSubOne t))))).topics t = some [cid]) := by
  have h1 : step s (Ev.msg cid (some (.obj (mSubOne t)))) =
      setConn { s with topics := subscribeTopic s.topics t cid } cid
        { c with subscribedTopics := strSetAdd c.subscribedTopics t } := by
    simp only [step, onMessage_subscribe_one s cid c t hg hc]
  have hgs : getConn (setConn { s with topics := subscribeTopic s.topics t cid } cid
        { c with subscribedTopics := strSetAdd c.subscribedTopics t }) cid =
      some { c with subscribedTopics := strSetAdd c.subscribedTopics t } :=
    getConn_setConn_self (by rw [getConn_topicsUpd]; exact hg)
  have h2 : step (setConn { s with topics := subscribeTopic s.topics t cid } cid
        { c with subscribedTopics := strSetAdd c.subscribedTopics t })
        (Ev.msg cid (some (.obj (mSubOne t)))) =
      setConn { s with topics := subscribeTopic s.topics t cid } cid
        { c with subscribedTopics := strSetAdd c.subscribedTopics t } := by
    simp only [step, onMessage_subscribe_one _ cid
      { c with subscribedTopics := strSetAdd c.subscribedTopics t } t hgs hc]
    show setConn { setConn { s with topics := subscribeTopic s.topics t cid } cid
            { c with subscribedTopics := strSetAdd c.subscribedTopics t } with
          topics := subscribeTopic (subscribeTopic s.topics t cid) t cid } cid
        { c with subscribedTopics := strSetAdd (strSetAdd c.subscribedTopics t) t } = _
    rw [subscribeTopic_idem, strSetAdd_idem]
    show ServerState.mk (subscribeTopic s.topics t cid)
        (updC (updC s.conns cid { c with subscribedTopics := strSetAdd c.subscribedTopics t })
          cid { c with subscribedTopics := strSetAdd c.subscribedTopics t }) =
      ServerState.mk (subscribeTopic s.topics t cid)
        (updC s.conns cid { c with subscribedTopics := strSetAdd c.subscribedTopics t })
    rw [updC_updC]
  constructor
  · rw [h1]
    exact h2
  · intro hnone
    rw [h1, h2, setConn_topics, lookupTopic_subscribeTopic_self, hnone]
    rfl

/-- Witness for the C8 theorem: connection 0 subscribes twice to the
fresh topic "a" on the one-connection server. -/
theorem c8_subscribe_idempotent_witness :
    getConn sOne 0 = some cOpen ∧ cOpen.closed = false ∧
      (step (step sOne (Ev.msg 0 (some (.obj (mSubOne "a")))))
          (Ev.msg 0 (some (.obj (mSubOne "a")))) =
        step sOne (Ev.msg 0 (some (.obj (mSubOne "a")))) ∧
      (lookupTopic sOne.topics "a" = none →
        lookupTopic (step (step sOne (Ev.msg 0 (some (.obj (mSubOne "a")))))
          (Ev.msg 0 (some (.obj (mSubOne "a"))))).topics "a" = some [0])) :=
  ⟨rfl, rfl, c8_subscribe_idempotent sOne 0 cOpen "a" rfl rfl⟩

/-- C3, counterexample to the claim as stated. After connection 0
subscribes to "a" and then unsubscribes from it, the removal empties the
subscriber set but the topic entry is not deleted: the registry still
maps "a" to the empty set, falsifying both the existence-iff-non-empty
equivalence and the claimed deletion on emptying. -/
theorem c3_registry_nonempty_counterexample :
    lookupTopic subUnsub.topics "a" = some [] := rfl

/-- C3, amended: unsubscribe removes the connection from each named
topic's subscriber set when present (afterwards the connection is in
none of the named sets), and it never deletes a topic entry — the
registry's key list is exactly unchanged — so a topic entry with an
empty subscriber set can persist; entries are created non-empty by
subscribe and deleted only by the close path. -/
theorem c3_unsubscribe_never_deletes (s : ServerState) (cid : Nat) (c : ConnSt)
    (xs : List JEntry) (hg : getConn s cid = some c) (hc : c.closed = false) :
    (step s (Ev.msg cid (some (.obj (mUnsub xs))))).topics.map Prod.fst =
      s.topics.map Prod.fst ∧
    (∀ t, JEntry.str t ∈ xs → ∀ v,
      lookupTopic (step s (Ev.msg cid (some (.obj (mUnsub xs))))).topics t = some v →
        cid ∉ v) := by
  have h1 : step s (Ev.msg cid (some (.obj (mUnsub xs)))) =
      { s with topics := unsubscribeAll cid xs s.topics } := by
    simp only [step, onMessage_unsubscribe s cid c xs hg hc]
  rw [h1]
  exact ⟨unsubscribeAll_keys cid xs s.topics,
    fun t hmem v hl => unsubscribeAll_removed cid xs s.topics t hmem v hl⟩

/-- Witness for the C3 theorem: connection 0 unsubscribes from "a" while
being its only subscriber; the key list survives. -/
theorem c3_unsubscribe_never_deletes_witness :
    getConn sSubbed 0 = some cSubbed ∧ cSubbed.closed = false ∧
      ((step sSubbed (Ev.msg 0 (some (.obj (mUnsub [JEntry.str "a"]))))).topics.map Prod.fst =
        sSubbed.topics.map Prod.fst ∧
      (∀ t, JEntry.str t ∈ [JEntry.str "a"] → ∀ v,
        lookupTopic (step sSubbed
          (Ev.msg 0 (some (.obj (mUnsub [JEntry.str "a"]))))).topics t = some v → 0 ∉ v)) :=
  ⟨rfl, rfl, c3_unsubscribe_never_deletes sSubbed 0 cSubbed [JEntry.str "a"] rfl rfl⟩

/-- C4, counterexample to the claim as stated. A peer-initiated close of
connection 0 runs the close handler, which marks the connection closed
and unwinds the registry — but the handler contains no `clearInterval`,
so after the close the heartbeat timer is still set. -/
theorem c4_close_counterexample :
    getConn (onClose sSubbed 0) 0 =
      some { cSubbed with subscribedTopics := [], closed := true } ∧
    ({ cSubbed with subscribedTopics := [], closed := true } : ConnSt).timerActive = true :=
  ⟨rfl, rfl⟩

/-- C4, amended: on the close event the handler marks the connection
closed, clears its subscribed-topic set, removes it from every remaining
subscriber set, and deletes any topic of which it was the sole
subscriber — but it does not cancel the heartbeat timer: `timerActive`
is carried over unchanged (the timer dies only when a later tick finds
the ack flag unset). -/
theorem c4_close_unwinds_but_keeps_timer (s : ServerState) (cid : Nat) (c : ConnSt)
    (hg : getConn s cid = some c) (hk : KeysOk s.topics) (hi : Inv s) :
    getConn (onClose s cid) cid = some { c with subscribedTopics := [], closed := true } ∧
    ({ c with subscribedTopics := [], closed := true } : ConnSt).timerActive = c.timerActive ∧
    (∀ t v, lookupTopic (onClose s cid).topics t = some v → cid ∉ v) ∧
    (∀ t, lookupTopic s.topics t = some [cid] →
      lookupTopic (onClose s cid).topics t = none) := by
  have hoc : onClose s cid =
      setConn { s with topics := closeAll cid c.subscribedTopics s.topics } cid
        { c with subscribedTopics := [], closed := true } := by
    unfold onClose
    rw [hg]
  refine ⟨?_, rfl, ?_, ?_⟩
  · rw [hoc]
    exact getConn_setConn_self (by rw [getConn_topicsUpd]; exact hg)
  · intro t v hl
    rw [hoc, setConn_topics] at hl
    obtain ⟨hka, hspec⟩ := closeAll_spec cid c.subscribedTopics s.topics hk
    obtain ⟨v0, hv0, hsub, hproc⟩ := hspec t v hl
    intro hcin
    by_cases hmem : t ∈ c.subscribedTopics
    · exact hproc hmem hcin
    · have hin : t ∈ subsOf s cid := hi.toL t v0 hv0 cid (hsub cid hcin)
      simp only [subsOf, hg] at hin
      exact hmem hin
  · intro t hl
    rw [hoc, setConn_topics]
    have hmem : t ∈ c.subscribedTopics := by
      have hin := hi.toL t [cid] hl cid (List.mem_singleton.mpr rfl)
      simpa only [subsOf, hg] using hin
    exact closeAll_only_subscriber cid c.subscribedTopics s.topics t hk hmem hl

/-- Witness for the C4 theorem at the one-subscriber server. -/
theorem c4_close_unwinds_witness :
    getConn sSubbed 0 = some cSubbed ∧ KeysOk sSubbed.topics ∧ Inv sSubbed ∧
      (getConn (onClose sSubbed 0) 0 =
          some { cSubbed with subscribedTopics := [], closed := true } ∧
        ({ cSubbed with subscribedTopics := [], closed := true } : ConnSt).timerActive =
          cSubbed.timerActive ∧
        (∀ t v, lookupTopic (onClose sSubbed 0).topics t = some v → 0 ∉ v) ∧
        (∀ t, lookupTopic sSubbed.topics t = some [0] →
          lookupTopic (onClose sSubbed 0).topics t = none)) :=
  ⟨rfl, by decide, by decide,
    c4_close_unwinds_but_keeps_timer sSubbed 0 cSubbed rfl (by decide) (by decide)⟩

/-- C6, counterexample to the claim as stated. The topic named "" can
hold subscribers (connection 0 here, so N = 1 ≥ 1), yet a publish whose
`topic` field is "" delivers zero messages: "" fails the truthiness test
`if (message.topic)`, so the claim's universal statement over topics is
false at the empty-string topic. -/
theorem c6_publish_counterexample :
    lookupTopic (step sOne (Ev.msg 0 (some (.obj (mSubOne ""))))).topics "" = some [0] ∧
    onMessage (step sOne (Ev.msg 0 (some (.obj (mSubOne ""))))) 0
      (some (.obj (mPub (JAtom.str "") 7))) =
      .ok (step sOne (Ev.msg 0 (some (.obj (mSubOne "")))), []) :=
  ⟨rfl, rfl⟩

/-- C6, amended: for a topic registered under a non-empty name with
subscriber list `rs` (N = rs.length ≥ 1), a publish delivers exactly one
message per subscriber, in registry order (the sender included when
subscribed), each message being the original annotated with
`clients = N`; a publish to a topic absent from the registry delivers
nothing and raises no error. -/
theorem c6_publish_fanout (s : ServerState) (cid : Nat) (c : ConnSt) (t : String) (p : Nat)
    (hg : getConn s cid = some c) (hc : c.closed = false) (ht : ¬t = "") :
    (∀ rs, lookupTopic s.topics t = some rs → 1 ≤ rs.length →
      ∃ s2, onMessage s cid (some (.obj (mPub (JAtom.str t) p))) = .ok (s2,
        rs.map (fun r => (r, OutMsg.publish (mPub (JAtom.str t) p) rs.length)))) ∧
    (lookupTopic s.topics t = none →
      onMessage s cid (some (.obj (mPub (JAtom.str t) p))) = .ok (s, [])) := by
  have hguard : ((mPub (JAtom.str t) p).type.truthy && !c.closed) = true := by
    rw [hc]
    rfl
  constructor
  · intro rs hrs hlen
    refine ⟨(publishFan s (OutMsg.publish (mPub (JAtom.str t) p) rs.length) rs).1, ?_⟩
    unfold onMessage
    rw [hg]
    show (if ((mPub (JAtom.str t) p).type.truthy && !c.closed) = true
          then handleParsed s cid c (mPub (JAtom.str t) p) else .ok (s, [])) = _
    rw [if_pos hguard]
    unfold handleParsed
    show (if t = "" then Except.ok (s, [])
          else match lookupTopic s.topics t with
            | some receivers => Except.ok (publishFan s
                (OutMsg.publish (mPub (JAtom.str t) p) receivers.length) receivers)
            | none => Except.ok (s, [])) = _
    rw [if_neg ht, hrs]
    show Except.ok (publishFan s (OutMsg.publish (mPub (JAtom.str t) p) rs.length) rs) = _
    rw [show publishFan s (OutMsg.publish (mPub (JAtom.str t) p) rs.length) rs =
          ((publishFan s (OutMsg.publish (mPub (JAtom.str t) p) rs.length) rs).1,
           (publishFan s (OutMsg.publish (mPub (JAtom.str t) p) rs.length) rs).2) from rfl,
        publishFan_log]
  · intro hnone
    unfold onMessage
    rw [hg]
    show (if ((mPub (JAtom.str t) p).type.truthy && !c.closed) = true
          then handleParsed s cid c (mPub (JAtom.str t) p) else .ok (s, [])) = _
    rw [if_pos hguard]
    unfold handleParsed
    show (if t = "" then Except.ok (s, [])
          else match lookupTopic s.topics t with
            | some receivers => Except.ok (publishFan s
                (OutMsg.publish (mPub (JAtom.str t) p) receivers.length) receivers)
            | none => Except.ok (s, [])) = _
    rw [if_neg ht, hnone]

/-- Witness for the C6 theorem: publishing on "a" in the one-subscriber
server delivers exactly one message annotated `clients = 1`. -/
theorem c6_publish_fanout_witness :
    getConn sSubbed 0 = some cSubbed ∧ cSubbed.closed = false ∧ ¬("a" = "") ∧
      lookupTopic sSubbed.topics "a" = some [0] ∧ 1 ≤ [0].length ∧
      ∃ s2, onMessage sSubbed 0 (some (.obj (mPub (JAtom.str "a") 7))) = .ok (s2,
        [0].map (fun r => (r, OutMsg.publish (mPub (JAtom.str "a") 7) [0].length))) :=
  ⟨rfl, rfl, by decide, rfl, by decide,
    (c6_publish_fanout sSubbed 0 cSubbed "a" 7 rfl rfl (by decide)).1 [0] rfl (by decide)⟩

/-- C7: for an open connection whose heartbeat timer is set, a tick with
the ack flag down forcibly closes the connection, cancels the timer and
sends no probe; a tick with the ack flag up lowers the flag and sends a
probe (the probe flag of `onTick` is true), a throwing `conn.ping()`
additionally closing the connection; and a pong event always raises the
ack flag. -/
theorem c7_heartbeat_tick (s : ServerState) (cid : Nat) (c : ConnSt)
    (hg : getConn s cid = some c) (hopen : c.readyState = 1) (htimer : c.timerActive = true) :
    (c.pongReceived = false →
      onTick s cid = (setConn s cid { jsClose c with timerActive := false }, false) ∧
      2 ≤ ({ jsClose c with timerActive := false } : ConnSt).readyState ∧
      ({ jsClose c with timerActive := false } : ConnSt).timerActive = false) ∧
    (c.pongReceived = true →
      (c.pingFails = true →
        onTick s cid = (setConn s cid (jsClose { c with pongReceived := false }), true) ∧
        2 ≤ (jsClose { c with pongReceived := false }).readyState) ∧
      (c.pingFails = false →
        onTick s cid = (setConn s cid { c with pongReceived := false }, true))) ∧
    (∀ (s2 : ServerState) (cid2 : Nat) (c2 : ConnSt), getConn s2 cid2 = some c2 →
      onPong s2 cid2 = setConn s2 cid2 { c2 with pongReceived := true }) := by
  have hta : ¬(c.timerActive = false) := by simp [htimer]
  refine ⟨?_, ?_, ?_⟩
  · intro hpong
    refine ⟨?_, jsClose_readyState_ge c, rfl⟩
    unfold onTick
    rw [hg]
    show (if c.timerActive = false then (s, false)
          else if c.pongReceived = false then
            (setConn s cid { jsClose c with timerActive := false }, false)
          else if c.pingFails = true then
            (setConn s cid (jsClose { c with pongReceived := false }), true)
          else (setConn s cid { c with pongReceived := false }, true)) = _
    rw [if_neg hta, if_pos hpong]
  · intro hpong
    have hpr : ¬(c.pongReceived = false) := by simp [hpong]
    constructor
    · intro hpf
      refine ⟨?_, jsClose_readyState_ge _⟩
      unfold onTick
      rw [hg]
      show (if c.timerActive = false then (s, false)
            else if c.pongReceived = false then
              (setConn s cid { jsClose c with timerActive := false }, false)
            else if c.pingFails = true then
              (setConn s cid (jsClose { c with pongReceived := false }), true)
            else (setConn s cid { c with pongReceived := false }, true)) = _
      rw [if_neg hta, if_neg hpr, if_pos hpf]
    · intro hpf
      have hpf2 : ¬(c.pingFails = true) := by simp [hpf]
      unfold onTick
      rw [hg]
      show (if c.timerActive = false then (s, false)
            else if c.pongReceived = false then
              (setConn s cid { jsClose c with timerActive := false }, false)
            else if c.pingFails = true then
              (setConn s cid (jsClose { c with pongReceived := false }), true)
            else (setConn s cid { c with pongReceived := false }, true)) = _
      rw [if_neg hta, if_neg hpr, if_neg hpf2]
  · intro s2 cid2 c2 hg2
    unfold onPong
    rw [hg2]

/-- Witness for the C7 theorem at the one-subscriber server: connection
0 is open with its timer set and the ack flag up, so the tick lowers the
flag and sends a probe. -/
theorem c7_heartbeat_tick_witness :
    getConn sSubbed 0 = some cSubbed ∧ cSubbed.readyState = 1 ∧ cSubbed.timerActive = true ∧
      ((cSubbed.pongReceived = false →
        onTick sSubbed 0 = (setConn sSubbed 0 { jsClose cSubbed with timerActive := false },
          false) ∧
        2 ≤ ({ jsClose cSubbed with timerActive := false } : ConnSt).readyState ∧
        ({ jsClose cSubbed with timerActive := false } : ConnSt).timerActive = false) ∧
      (cSubbed.pongReceived = true →
        (cSubbed.pingFails = true →
          onTick sSubbed 0 = (setConn sSubbed 0 (jsClose { cSubbed with
            pongReceived := false }), true) ∧
          2 ≤ (jsClose { cSubbed with pongReceived := false }).readyState) ∧
        (cSubbed.pingFails = false →
          onTick sSubbed 0 = (setConn sSubbed 0 { cSubbed with pongReceived := false }, true))) ∧
      (∀ (s2 : ServerState) (cid2 : Nat) (c2 : ConnSt), getConn s2 cid2 = some c2 →
        onPong s2 cid2 = setConn s2 cid2 { c2 with pongReceived := true })) :=
  ⟨rfl, rfl, rfl, c7_heartbeat_tick sSubbed 0 cSubbed rfl rfl rfl⟩

end Sig
